import Mathlib

/-!
Verification of the VFT role-gated fungible-token ledger
(src/VFT/app/src/services/service.rs) against its specification.

The balance store (`BalancesMap`, `balance_of`) lives in the external
`vft_service` crate; it is modelled from the spec as an association list
from account ids to 256-bit unsigned balances.  The functions `mint`,
`burn` and the `ExtendedService` layer are embedded directly from the
source file.
-/

/-- Account identity (Gear `ActorId`), modelled as a natural number. -/
abbrev ActorId := Nat

/-- The size of the 256-bit unsigned integer domain (`U256`). -/
def U256_MOD : Nat := 2 ^ 256

/-- Checked addition in the `U256` domain: `a.checked_add b` is `none`
exactly when the mathematical sum leaves the 256-bit range. -/
def checked_add (a b : Nat) : Option Nat :=
  if a + b < U256_MOD then some (a + b) else none

/-- Checked subtraction in the `U256` domain: `a.checked_sub b` is `none`
exactly when `b > a`. -/
def checked_sub (a b : Nat) : Option Nat :=
  if b ≤ a then some (a - b) else none

/-- Modelled from the spec: the account-to-balance mapping owned by the
external `vft_service` storage (`BalancesMap`), as an association list. -/
abbrev BalancesMap := List (ActorId × Nat)

/-- Lookup of the first binding for a key in the map. -/
def lookupB : BalancesMap → ActorId → Option Nat
  | [], _ => none
  | (k, w) :: t, a => if k = a then some w else lookupB t a

/-- Modelled from the spec: `balance_of` of the external `vft_service`
crate returns `0` if the account is absent, else the stored value. -/
def balance_of (m : BalancesMap) (a : ActorId) : Nat :=
  (lookupB m a).getD 0

/-- Removal of every binding for a key (map `remove`). -/
def removeB : BalancesMap → ActorId → BalancesMap
  | [], _ => []
  | (k, w) :: t, a => if k = a then removeB t a else (k, w) :: removeB t a

/-- Insertion of a binding, replacing any existing one (map `insert`). -/
def insertB (m : BalancesMap) (a : ActorId) (v : Nat) : BalancesMap :=
  (a, v) :: removeB m a

/-- Sum of all values stored in the map. -/
def sumB : BalancesMap → Nat
  | [] => 0
  | (_, w) :: t => w + sumB t

/-- Keys of the map. -/
def keysB (m : BalancesMap) : List ActorId := m.map Prod.fst

/-- Well-formedness: keys are pairwise distinct (as in a hash map). -/
def wfB (m : BalancesMap) : Prop := (keysB m).Nodup

instance (m : BalancesMap) : Decidable (wfB m) := by
  unfold wfB; infer_instance

/-- Error taxonomy of the external `vft_service` crate, modelled from the
spec (only the variants the core uses). -/
inductive Error where
  | NumericOverflow
  | Underflow
  | InsufficientBalance
deriving DecidableEq, Repr

/-- State of the balance store: balances map plus total-supply scalar. -/
structure VftState where
  balances : BalancesMap
  total_supply : Nat
deriving DecidableEq, Repr

/-- Embedding of `mint` (service.rs lines 173-195): zero amount is a
no-op returning `false`; checked addition into the total supply, then
into the target balance, each failing with `NumericOverflow`; on success
both new values are committed and `true` is returned. -/
def mint (s : VftState) (dst : ActorId) (value : Nat) :
    Except Error (Bool × VftState) :=
  if value = 0 then .ok (false, s)
  else
    match checked_add s.total_supply value with
    | none => .error Error.NumericOverflow
    | some new_total_supply =>
      match checked_add (balance_of s.balances dst) value with
      | none => .error Error.NumericOverflow
      | some new_to =>
        .ok (true, { balances := insertB s.balances dst new_to,
                     total_supply := new_total_supply })

/-- Embedding of `burn` (service.rs lines 198-221): zero amount is a
no-op returning `false`; checked subtraction from the total supply
(failing with `Underflow`), then from the source balance (failing with
`InsufficientBalance`); a balance reaching zero removes the key. -/
def burn (s : VftState) (frm : ActorId) (value : Nat) :
    Except Error (Bool × VftState) :=
  if value = 0 then .ok (false, s)
  else
    match checked_sub s.total_supply value with
    | none => .error Error.Underflow
    | some new_total_supply =>
      match checked_sub (balance_of s.balances frm) value with
      | none => .error Error.InsufficientBalance
      | some new_frm =>
        .ok (true,
          { balances :=
              if new_frm ≠ 0 then insertB s.balances frm new_frm
              else removeB s.balances frm,
            total_supply := new_total_supply })

/-- A balance-store operation: a `mint` or a `burn` call. -/
inductive Op where
  | mint (dst : ActorId) (value : Nat)
  | burn (frm : ActorId) (value : Nat)
deriving DecidableEq, Repr

/-- Applying one operation: on failure the state is unchanged (the Rust
functions return before any mutation on every error path). -/
def applyOp (s : VftState) (op : Op) : VftState :=
  match op with
  | .mint dst v =>
    match mint s dst v with
    | .ok (_, s') => s'
    | .error _ => s
  | .burn frm v =>
    match burn s frm v with
    | .ok (_, s') => s'
    | .error _ => s

/-- Running a finite sequence of operations. -/
def run (s : VftState) (ops : List Op) : VftState :=
  ops.foldl applyOp s

/-- The initial balance-store state: empty map, zero total supply. -/
def initState : VftState := { balances := [], total_supply := 0 }

/-! ### The extended service layer (roles, events, authorization) -/

/-- Role storage of the extended service (service.rs lines 17-22). -/
structure ExtendedStorage where
  minters : Finset ActorId
  burners : Finset ActorId
  admins : Finset ActorId
deriving DecidableEq

/-- Events emitted by the extended service (service.rs lines 29-32). -/
inductive Event where
  | Minted (dst : ActorId) (value : Nat)
  | Burned (frm : ActorId) (value : Nat)
deriving DecidableEq, Repr

/-- Failure of an extended-service call: the authorization check or a
propagated balance-store error (both are traps in the Gear execution
model, reverting the whole message: no state change, no event). -/
inductive ExtError where
  | NotAuthorized
  | TokenError (e : Error)
deriving DecidableEq, Repr

/-- Full state of the extended service: role sets plus the vft store. -/
structure ExtState where
  ext : ExtendedStorage
  vft : VftState
deriving DecidableEq

/-- Embedding of `ExtendedService::seed`: the initializing caller is put
in all three role sets; the balance store starts empty with zero total
supply. -/
def seed (admin : ActorId) : ExtState :=
  { ext := { minters := {admin}, burners := {admin}, admins := {admin} },
    vft := initState }

/-- Embedding of `ExtendedService::mint` (service.rs lines 81-95): only
minters are allowed; delegates to `mint` and emits a `Minted` event when
a mutation happened. -/
def extMint (s : ExtState) (caller dst : ActorId) (value : Nat) :
    Except ExtError (Bool × List Event × ExtState) :=
  if caller ∉ s.ext.minters then .error ExtError.NotAuthorized
  else
    match mint s.vft dst value with
    | .error e => .error (ExtError.TokenError e)
    | .ok (mutated, v') =>
      .ok (mutated, if mutated then [Event.Minted dst value] else [],
           { s with vft := v' })

/-- Embedding of `ExtendedService::burn` (service.rs lines 98-111): only
burners are allowed; delegates to `burn` and emits a `Burned` event when
a mutation happened. -/
def extBurn (s : ExtState) (caller frm : ActorId) (value : Nat) :
    Except ExtError (Bool × List Event × ExtState) :=
  if caller ∉ s.ext.burners then .error ExtError.NotAuthorized
  else
    match burn s.vft frm value with
    | .error e => .error (ExtError.TokenError e)
    | .ok (mutated, v') =>
      .ok (mutated, if mutated then [Event.Burned frm value] else [],
           { s with vft := v' })

/-- Embedding of `grant_admin_role` guarded by `ensure_is_admin`
(service.rs lines 114-117 and 160-164). -/
def grant_admin_role (s : ExtState) (caller dst : ActorId) :
    Except ExtError ExtState :=
  if caller ∉ s.ext.admins then .error ExtError.NotAuthorized
  else .ok { s with ext := { s.ext with admins := insert dst s.ext.admins } }

/-- Embedding of `grant_minter_role` (service.rs lines 119-122). -/
def grant_minter_role (s : ExtState) (caller dst : ActorId) :
    Except ExtError ExtState :=
  if caller ∉ s.ext.admins then .error ExtError.NotAuthorized
  else .ok { s with ext := { s.ext with minters := insert dst s.ext.minters } }

/-- Embedding of `grant_burner_role` (service.rs lines 124-127). -/
def grant_burner_role (s : ExtState) (caller dst : ActorId) :
    Except ExtError ExtState :=
  if caller ∉ s.ext.admins then .error ExtError.NotAuthorized
  else .ok { s with ext := { s.ext with burners := insert dst s.ext.burners } }

/-- Embedding of `revoke_admin_role` (service.rs lines 130-133). -/
def revoke_admin_role (s : ExtState) (caller frm : ActorId) :
    Except ExtError ExtState :=
  if caller ∉ s.ext.admins then .error ExtError.NotAuthorized
  else .ok { s with ext := { s.ext with admins := s.ext.admins.erase frm } }

/-- Embedding of `revoke_minter_role` (service.rs lines 135-138). -/
def revoke_minter_role (s : ExtState) (caller frm : ActorId) :
    Except ExtError ExtState :=
  if caller ∉ s.ext.admins then .error ExtError.NotAuthorized
  else .ok { s with ext := { s.ext with minters := s.ext.minters.erase frm } }

/-- Embedding of `revoke_burner_role` (service.rs lines 140-143). -/
def revoke_burner_role (s : ExtState) (caller frm : ActorId) :
    Except ExtError ExtState :=
  if caller ∉ s.ext.admins then .error ExtError.NotAuthorized
  else .ok { s with ext := { s.ext with burners := s.ext.burners.erase frm } }

/-- An external call to the extended service, with its caller. -/
inductive ExtOp where
  | mint (caller dst : ActorId) (value : Nat)
  | burn (caller frm : ActorId) (value : Nat)
  | grantAdmin (caller dst : ActorId)
  | grantMinter (caller dst : ActorId)
  | grantBurner (caller dst : ActorId)
  | revokeAdmin (caller frm : ActorId)
  | revokeMinter (caller frm : ActorId)
  | revokeBurner (caller frm : ActorId)
deriving DecidableEq

/-- Observable effect of one external call: the events delivered and the
state after the call.  A failed call is a reverted message: no events,
state unchanged. -/
def applyExtE (s : ExtState) (op : ExtOp) : List Event × ExtState :=
  match op with
  | .mint c dst v =>
    match extMint s c dst v with
    | .ok (_, evs, s') => (evs, s')
    | .error _ => ([], s)
  | .burn c frm v =>
    match extBurn s c frm v with
    | .ok (_, evs, s') => (evs, s')
    | .error _ => ([], s)
  | .grantAdmin c dst =>
    match grant_admin_role s c dst with
    | .ok s' => ([], s')
    | .error _ => ([], s)
  | .grantMinter c dst =>
    match grant_minter_role s c dst with
    | .ok s' => ([], s')
    | .error _ => ([], s)
  | .grantBurner c dst =>
    match grant_burner_role s c dst with
    | .ok s' => ([], s')
    | .error _ => ([], s)
  | .revokeAdmin c frm =>
    match revoke_admin_role s c frm with
    | .ok s' => ([], s')
    | .error _ => ([], s)
  | .revokeMinter c frm =>
    match revoke_minter_role s c frm with
    | .ok s' => ([], s')
    | .error _ => ([], s)
  | .revokeBurner c frm =>
    match revoke_burner_role s c frm with
    | .ok s' => ([], s')
    | .error _ => ([], s)

/-- Running a finite sequence of external calls. -/
def runExt (s : ExtState) (ops : List ExtOp) : ExtState :=
  ops.foldl (fun s op => (applyExtE s op).2) s

/-- Events observed by the environment from one call result: a trapped
(failed) message delivers no events. -/
def extResultEvents (r : Except ExtError (Bool × List Event × ExtState)) :
    List Event :=
  match r with
  | .ok (_, evs, _) => evs
  | .error _ => []

/-! ### Basic map lemmas -/

theorem keysB_nil : keysB [] = [] := rfl

theorem keysB_cons (k : ActorId) (w : Nat) (t : BalancesMap) :
    keysB ((k, w) :: t) = k :: keysB t := rfl

theorem lookupB_removeB_self (m : BalancesMap) (a : ActorId) :
    lookupB (removeB m a) a = none := by
  induction m with
  | nil => rfl
  | cons p t ih =>
    obtain ⟨k, w⟩ := p
    by_cases hk : k = a <;> simp [removeB, lookupB, hk, ih]

theorem lookupB_removeB_ne (m : BalancesMap) (a b : ActorId) (h : b ≠ a) :
    lookupB (removeB m a) b = lookupB m b := by
  induction m with
  | nil => rfl
  | cons p t ih =>
    obtain ⟨k, w⟩ := p
    by_cases hk : k = a
    · subst hk
      simp [removeB, lookupB, (Ne.symm h), ih]
    · by_cases hb : k = b <;> simp [removeB, lookupB, hk, hb, h, ih]

theorem lookupB_insertB_self (m : BalancesMap) (a : ActorId) (v : Nat) :
    lookupB (insertB m a v) a = some v := by
  simp [insertB, lookupB]

theorem lookupB_insertB_ne (m : BalancesMap) (a b : ActorId) (v : Nat)
    (h : b ≠ a) : lookupB (insertB m a v) b = lookupB m b := by
  simp [insertB, lookupB, (Ne.symm h), lookupB_removeB_ne m a b h]

theorem mem_keysB_of_mem_removeB (m : BalancesMap) (a b : ActorId)
    (h : b ∈ keysB (removeB m a)) : b ∈ keysB m := by
  induction m with
  | nil => simp [removeB, keysB_nil] at h
  | cons p t ih =>
    obtain ⟨k, w⟩ := p
    rw [keysB_cons, List.mem_cons]
    by_cases hk : k = a
    · rw [removeB, if_pos hk] at h
      exact Or.inr (ih h)
    · rw [removeB, if_neg hk, keysB_cons, List.mem_cons] at h
      exact h.imp id ih

theorem not_mem_keysB_removeB (m : BalancesMap) (a : ActorId) :
    a ∉ keysB (removeB m a) := by
  induction m with
  | nil => simp [removeB, keysB_nil]
  | cons p t ih =>
    obtain ⟨k, w⟩ := p
    by_cases hk : k = a
    · rw [removeB, if_pos hk]
      exact ih
    · rw [removeB, if_neg hk, keysB_cons, List.mem_cons]
      push_neg
      exact ⟨fun hka => hk hka.symm, ih⟩

theorem removeB_of_not_mem (m : BalancesMap) (a : ActorId)
    (h : a ∉ keysB m) : removeB m a = m := by
  induction m with
  | nil => rfl
  | cons p t ih =>
    obtain ⟨k, w⟩ := p
    rw [keysB_cons, List.mem_cons] at h
    push_neg at h
    rw [removeB, if_neg (show ¬(k = a) from fun hka => h.1 hka.symm), ih h.2]

theorem wfB_removeB (m : BalancesMap) (a : ActorId) (h : wfB m) :
    wfB (removeB m a) := by
  induction m with
  | nil => exact h
  | cons p t ih =>
    obtain ⟨k, w⟩ := p
    rw [wfB, keysB_cons, List.nodup_cons] at h
    by_cases hk : k = a
    · rw [removeB, if_pos hk]
      exact ih h.2
    · rw [removeB, if_neg hk]
      rw [wfB, keysB_cons, List.nodup_cons]
      exact ⟨fun hmem => h.1 (mem_keysB_of_mem_removeB t a k hmem), ih h.2⟩

theorem wfB_insertB (m : BalancesMap) (a : ActorId) (v : Nat) (h : wfB m) :
    wfB (insertB m a v) := by
  rw [insertB, wfB, keysB_cons, List.nodup_cons]
  exact ⟨not_mem_keysB_removeB m a, wfB_removeB m a h⟩

theorem sum_removeB (m : BalancesMap) (a : ActorId) (h : wfB m) :
    sumB m = balance_of m a + sumB (removeB m a) := by
  induction m with
  | nil => rfl
  | cons p t ih =>
    obtain ⟨k, w⟩ := p
    rw [wfB, keysB_cons, List.nodup_cons] at h
    by_cases hk : k = a
    · subst hk
      have ht : removeB t k = t := removeB_of_not_mem t k h.1
      simp [sumB, balance_of, lookupB, removeB, ht]
    · have hrec := ih h.2
      simp only [sumB, balance_of, lookupB, removeB, if_neg hk] at hrec ⊢
      omega

theorem balance_of_le_sumB (m : BalancesMap) (a : ActorId) :
    balance_of m a ≤ sumB m := by
  induction m with
  | nil => simp [balance_of, lookupB, sumB]
  | cons p t ih =>
    obtain ⟨k, w⟩ := p
    by_cases hk : k = a
    · simp [balance_of, lookupB, sumB, hk]
    · simp only [balance_of, lookupB, sumB, if_neg hk] at ih ⊢
      omega


/-! ### Checked arithmetic lemmas -/

theorem checked_add_eq_some (a b c : Nat) :
    checked_add a b = some c ↔ a + b < U256_MOD ∧ c = a + b := by
  unfold checked_add
  split
  · simp_all
    omega
  · simp_all

theorem checked_add_eq_none (a b : Nat) :
    checked_add a b = none ↔ U256_MOD ≤ a + b := by
  unfold checked_add
  split
  · simp_all
  · simp_all

theorem checked_sub_eq_some (a b c : Nat) :
    checked_sub a b = some c ↔ b ≤ a ∧ c = a - b := by
  unfold checked_sub
  split
  · simp_all
    omega
  · simp_all

theorem checked_sub_eq_none (a b : Nat) :
    checked_sub a b = none ↔ a < b := by
  unfold checked_sub
  split
  · simp_all
  · simp_all

/-! ### Characterization of `mint` and `burn` -/

theorem mint_zero (s : VftState) (dst : ActorId) :
    mint s dst 0 = .ok (false, s) := by
  simp [mint]

theorem burn_zero (s : VftState) (frm : ActorId) :
    burn s frm 0 = .ok (false, s) := by
  simp [burn]

theorem mint_overflow_total (s : VftState) (dst : ActorId) (v : Nat)
    (hv : v ≠ 0) (h : U256_MOD ≤ s.total_supply + v) :
    mint s dst v = .error Error.NumericOverflow := by
  have hn : checked_add s.total_supply v = none := by
    rw [checked_add_eq_none]; exact h
  simp [mint, hv, hn]

theorem mint_overflow_balance (s : VftState) (dst : ActorId) (v : Nat)
    (hv : v ≠ 0) (h : U256_MOD ≤ balance_of s.balances dst + v) :
    mint s dst v = .error Error.NumericOverflow := by
  by_cases ht : s.total_supply + v < U256_MOD
  · have h1 : checked_add s.total_supply v = some (s.total_supply + v) := by
      rw [checked_add_eq_some]; exact ⟨ht, rfl⟩
    have h2 : checked_add (balance_of s.balances dst) v = none := by
      rw [checked_add_eq_none]; exact h
    simp [mint, hv, h1, h2]
  · exact mint_overflow_total s dst v hv (by omega)

theorem mint_success (s : VftState) (dst : ActorId) (v : Nat)
    (hv : v ≠ 0) (h1 : s.total_supply + v < U256_MOD)
    (h2 : balance_of s.balances dst + v < U256_MOD) :
    mint s dst v =
      .ok (true, { balances := insertB s.balances dst (balance_of s.balances dst + v),
                   total_supply := s.total_supply + v }) := by
  have e1 : checked_add s.total_supply v = some (s.total_supply + v) := by
    rw [checked_add_eq_some]; exact ⟨h1, rfl⟩
  have e2 : checked_add (balance_of s.balances dst) v =
      some (balance_of s.balances dst + v) := by
    rw [checked_add_eq_some]; exact ⟨h2, rfl⟩
  simp [mint, hv, e1, e2]

theorem burn_underflow (s : VftState) (frm : ActorId) (v : Nat)
    (hv : v ≠ 0) (h : s.total_supply < v) :
    burn s frm v = .error Error.Underflow := by
  have hn : checked_sub s.total_supply v = none := by
    rw [checked_sub_eq_none]; exact h
  simp [burn, hv, hn]

theorem burn_insufficient (s : VftState) (frm : ActorId) (v : Nat)
    (hv : v ≠ 0) (h1 : v ≤ s.total_supply)
    (h2 : balance_of s.balances frm < v) :
    burn s frm v = .error Error.InsufficientBalance := by
  have e1 : checked_sub s.total_supply v = some (s.total_supply - v) := by
    rw [checked_sub_eq_some]; exact ⟨h1, rfl⟩
  have e2 : checked_sub (balance_of s.balances frm) v = none := by
    rw [checked_sub_eq_none]; exact h2
  simp [burn, hv, e1, e2]

theorem burn_success (s : VftState) (frm : ActorId) (v : Nat)
    (hv : v ≠ 0) (h1 : v ≤ s.total_supply)
    (h2 : v ≤ balance_of s.balances frm) :
    burn s frm v =
      .ok (true,
        { balances :=
            if balance_of s.balances frm - v ≠ 0 then
              insertB s.balances frm (balance_of s.balances frm - v)
            else removeB s.balances frm,
          total_supply := s.total_supply - v }) := by
  have e1 : checked_sub s.total_supply v = some (s.total_supply - v) := by
    rw [checked_sub_eq_some]; exact ⟨h1, rfl⟩
  have e2 : checked_sub (balance_of s.balances frm) v =
      some (balance_of s.balances frm - v) := by
    rw [checked_sub_eq_some]; exact ⟨h2, rfl⟩
  simp [burn, hv, e1, e2]

theorem mint_ok_cases (s : VftState) (dst : ActorId) (v : Nat) (b : Bool)
    (s' : VftState) (h : mint s dst v = .ok (b, s')) :
    (b = false ∧ v = 0 ∧ s' = s) ∨
    (b = true ∧ v ≠ 0 ∧ s.total_supply + v < U256_MOD ∧
     balance_of s.balances dst + v < U256_MOD ∧
     s' = { balances := insertB s.balances dst (balance_of s.balances dst + v),
            total_supply := s.total_supply + v }) := by
  by_cases hv : v = 0
  · subst hv
    rw [mint_zero] at h
    simp only [Except.ok.injEq, Prod.mk.injEq] at h
    exact Or.inl ⟨h.1.symm, rfl, h.2.symm⟩
  · by_cases h1 : s.total_supply + v < U256_MOD
    · by_cases h2 : balance_of s.balances dst + v < U256_MOD
      · rw [mint_success s dst v hv h1 h2] at h
        simp only [Except.ok.injEq, Prod.mk.injEq] at h
        exact Or.inr ⟨h.1.symm, hv, h1, h2, h.2.symm⟩
      · rw [mint_overflow_balance s dst v hv (by omega)] at h
        exact absurd h (by simp)
    · rw [mint_overflow_total s dst v hv (by omega)] at h
      exact absurd h (by simp)

theorem burn_ok_cases (s : VftState) (frm : ActorId) (v : Nat) (b : Bool)
    (s' : VftState) (h : burn s frm v = .ok (b, s')) :
    (b = false ∧ v = 0 ∧ s' = s) ∨
    (b = true ∧ v ≠ 0 ∧ v ≤ s.total_supply ∧ v ≤ balance_of s.balances frm ∧
     s' = { balances :=
              if balance_of s.balances frm - v ≠ 0 then
                insertB s.balances frm (balance_of s.balances frm - v)
              else removeB s.balances frm,
            total_supply := s.total_supply - v }) := by
  by_cases hv : v = 0
  · subst hv
    rw [burn_zero] at h
    simp only [Except.ok.injEq, Prod.mk.injEq] at h
    exact Or.inl ⟨h.1.symm, rfl, h.2.symm⟩
  · by_cases h1 : v ≤ s.total_supply
    · by_cases h2 : v ≤ balance_of s.balances frm
      · rw [burn_success s frm v hv h1 h2] at h
        simp only [Except.ok.injEq, Prod.mk.injEq] at h
        exact Or.inr ⟨h.1.symm, hv, h1, h2, h.2.symm⟩
      · rw [burn_insufficient s frm v hv h1 (by omega)] at h
        exact absurd h (by simp)
    · rw [burn_underflow s frm v hv (by omega)] at h
      exact absurd h (by simp)

/-! ### Preservation of the conservation invariant -/

theorem inv_applyOp (s : VftState) (op : Op)
    (h : wfB s.balances ∧ sumB s.balances = s.total_supply) :
    wfB (applyOp s op).balances ∧
    sumB (applyOp s op).balances = (applyOp s op).total_supply := by
  cases op with
  | mint dst v =>
    cases hm : mint s dst v with
    | error e =>
      simp only [applyOp]
      rw [hm]
      exact h
    | ok p =>
      obtain ⟨b, s'⟩ := p
      simp only [applyOp]
      rw [hm]
      show wfB s'.balances ∧ sumB s'.balances = s'.total_supply
      rcases mint_ok_cases s dst v b s' hm with ⟨_, _, hs⟩ | ⟨_, _, _, _, hs⟩
      · subst hs; exact h
      · subst hs
        have hsr := sum_removeB s.balances dst h.1
        refine ⟨wfB_insertB _ _ _ h.1, ?_⟩
        show balance_of s.balances dst + v + sumB (removeB s.balances dst) =
          s.total_supply + v
        omega
  | burn frm v =>
    cases hm : burn s frm v with
    | error e =>
      simp only [applyOp]
      rw [hm]
      exact h
    | ok p =>
      obtain ⟨b, s'⟩ := p
      simp only [applyOp]
      rw [hm]
      show wfB s'.balances ∧ sumB s'.balances = s'.total_supply
      rcases burn_ok_cases s frm v b s' hm with ⟨_, _, hs⟩ | ⟨_, _, _, hbal, hs⟩
      · subst hs; exact h
      · subst hs
        have hsr := sum_removeB s.balances frm h.1
        by_cases hz : balance_of s.balances frm - v ≠ 0
        · refine ⟨by rw [if_pos hz]; exact wfB_insertB _ _ _ h.1, ?_⟩
          show sumB (if balance_of s.balances frm - v ≠ 0 then
              insertB s.balances frm (balance_of s.balances frm - v)
            else removeB s.balances frm) = s.total_supply - v
          rw [if_pos hz]
          show balance_of s.balances frm - v + sumB (removeB s.balances frm) =
            s.total_supply - v
          omega
        · refine ⟨by rw [if_neg hz]; exact wfB_removeB _ _ h.1, ?_⟩
          show sumB (if balance_of s.balances frm - v ≠ 0 then
              insertB s.balances frm (balance_of s.balances frm - v)
            else removeB s.balances frm) = s.total_supply - v
          rw [if_neg hz]
          omega

theorem inv_run (ops : List Op) (s : VftState)
    (h : wfB s.balances ∧ sumB s.balances = s.total_supply) :
    wfB (run s ops).balances ∧
    sumB (run s ops).balances = (run s ops).total_supply := by
  induction ops generalizing s with
  | nil => exact h
  | cons op t ih => exact ih (applyOp s op) (inv_applyOp s op h)

/-! ### Preservation of the no-zero-entries invariant -/

theorem lookupB_insertB_cases (m : BalancesMap) (a b : ActorId) (v w : Nat)
    (h : lookupB (insertB m a v) b = some w) :
    (b = a ∧ w = v) ∨ lookupB m b = some w := by
  by_cases hb : b = a
  · subst hb
    rw [lookupB_insertB_self] at h
    exact Or.inl ⟨rfl, (Option.some_injective _ h).symm⟩
  · rw [lookupB_insertB_ne m a b v hb] at h
    exact Or.inr h

theorem lookupB_removeB_cases (m : BalancesMap) (a b : ActorId) (w : Nat)
    (h : lookupB (removeB m a) b = some w) : lookupB m b = some w := by
  by_cases hb : b = a
  · subst hb
    rw [lookupB_removeB_self] at h
    exact absurd h (by simp)
  · rw [lookupB_removeB_ne m a b hb] at h
    exact h

theorem nz_applyOp (s : VftState) (op : Op)
    (h : ∀ a w, lookupB s.balances a = some w → w ≠ 0) :
    ∀ a w, lookupB (applyOp s op).balances a = some w → w ≠ 0 := by
  cases op with
  | mint dst v =>
    cases hm : mint s dst v with
    | error e =>
      simp only [applyOp]
      rw [hm]
      exact h
    | ok p =>
      obtain ⟨b, s'⟩ := p
      simp only [applyOp]
      rw [hm]
      show ∀ a w, lookupB s'.balances a = some w → w ≠ 0
      rcases mint_ok_cases s dst v b s' hm with ⟨_, _, hs⟩ | ⟨_, hv, _, _, hs⟩
      · subst hs; exact h
      · subst hs
        intro a w hl
        rcases lookupB_insertB_cases _ _ _ _ _ hl with ⟨_, hw⟩ | hl'
        · subst hw; omega
        · exact h a w hl'
  | burn frm v =>
    cases hm : burn s frm v with
    | error e =>
      simp only [applyOp]
      rw [hm]
      exact h
    | ok p =>
      obtain ⟨b, s'⟩ := p
      simp only [applyOp]
      rw [hm]
      show ∀ a w, lookupB s'.balances a = some w → w ≠ 0
      rcases burn_ok_cases s frm v b s' hm with ⟨_, _, hs⟩ | ⟨_, hv, _, _, hs⟩
      · subst hs; exact h
      · subst hs
        intro a w hl
        by_cases hz : balance_of s.balances frm - v ≠ 0
        · rw [if_pos hz] at hl
          rcases lookupB_insertB_cases _ _ _ _ _ hl with ⟨_, hw⟩ | hl'
          · subst hw; exact hz
          · exact h a w hl'
        · rw [if_neg hz] at hl
          exact h a w (lookupB_removeB_cases _ _ _ _ hl)

theorem nz_run (ops : List Op) (s : VftState)
    (h : ∀ a w, lookupB s.balances a = some w → w ≠ 0) :
    ∀ a w, lookupB (run s ops).balances a = some w → w ≠ 0 := by
  induction ops generalizing s with
  | nil => exact h
  | cons op t ih => exact ih (applyOp s op) (nz_applyOp s op h)

/-! ### Authorization helpers -/

theorem extMint_not_minter (s : ExtState) (caller dst : ActorId) (v : Nat)
    (h : caller ∉ s.ext.minters) :
    extMint s caller dst v = .error ExtError.NotAuthorized := by
  unfold extMint
  rw [if_pos h]

theorem extBurn_not_burner (s : ExtState) (caller frm : ActorId) (v : Nat)
    (h : caller ∉ s.ext.burners) :
    extBurn s caller frm v = .error ExtError.NotAuthorized := by
  unfold extBurn
  rw [if_pos h]

theorem grant_admin_role_not_admin (s : ExtState) (c x : ActorId)
    (h : c ∉ s.ext.admins) :
    grant_admin_role s c x = .error ExtError.NotAuthorized := by
  unfold grant_admin_role
  rw [if_pos h]

theorem grant_minter_role_not_admin (s : ExtState) (c x : ActorId)
    (h : c ∉ s.ext.admins) :
    grant_minter_role s c x = .error ExtError.NotAuthorized := by
  unfold grant_minter_role
  rw [if_pos h]

theorem grant_burner_role_not_admin (s : ExtState) (c x : ActorId)
    (h : c ∉ s.ext.admins) :
    grant_burner_role s c x = .error ExtError.NotAuthorized := by
  unfold grant_burner_role
  rw [if_pos h]

theorem revoke_admin_role_not_admin (s : ExtState) (c x : ActorId)
    (h : c ∉ s.ext.admins) :
    revoke_admin_role s c x = .error ExtError.NotAuthorized := by
  unfold revoke_admin_role
  rw [if_pos h]

theorem revoke_minter_role_not_admin (s : ExtState) (c x : ActorId)
    (h : c ∉ s.ext.admins) :
    revoke_minter_role s c x = .error ExtError.NotAuthorized := by
  unfold revoke_minter_role
  rw [if_pos h]

theorem revoke_burner_role_not_admin (s : ExtState) (c x : ActorId)
    (h : c ∉ s.ext.admins) :
    revoke_burner_role s c x = .error ExtError.NotAuthorized := by
  unfold revoke_burner_role
  rw [if_pos h]

theorem extMint_ok_ext (s : ExtState) (caller dst : ActorId) (v : Nat)
    (b : Bool) (evs : List Event) (s' : ExtState)
    (h : extMint s caller dst v = .ok (b, evs, s')) : s'.ext = s.ext := by
  unfold extMint at h
  split at h
  · exact absurd h (by simp)
  · split at h
    · exact absurd h (by simp)
    · simp only [Except.ok.injEq, Prod.mk.injEq] at h
      exact h.2.2 ▸ rfl

theorem extBurn_ok_ext (s : ExtState) (caller frm : ActorId) (v : Nat)
    (b : Bool) (evs : List Event) (s' : ExtState)
    (h : extBurn s caller frm v = .ok (b, evs, s')) : s'.ext = s.ext := by
  unfold extBurn at h
  split at h
  · exact absurd h (by simp)
  · split at h
    · exact absurd h (by simp)
    · simp only [Except.ok.injEq, Prod.mk.injEq] at h
      exact h.2.2 ▸ rfl

/-! ### Claim theorems -/

/-- C1: Supply conservation — starting from the initial state (empty
balance map, zero total supply), after every finite sequence of mint and
burn operations (successful or failed), `total_supply` equals the sum of
all values stored in the balance map. -/
theorem c1_supply_conservation (ops : List Op) :
    (run initState ops).total_supply = sumB (run initState ops).balances :=
  (inv_run ops initState ⟨List.nodup_nil, rfl⟩).2.symm

/-- C2: For every state and every non-zero amount, `burn` first computes
`total_supply - amount` and fails with `Underflow` if that subtraction
underflows; otherwise it computes `balance_of(account) - amount` and
fails with `InsufficientBalance` if that underflows; in either failure
case the balance map and the total supply are left unchanged. -/
theorem c2_burn_error_order (s : VftState) (frm : ActorId) (v : Nat)
    (hv : v ≠ 0) :
    (s.total_supply < v →
       burn s frm v = .error Error.Underflow ∧ applyOp s (.burn frm v) = s) ∧
    (v ≤ s.total_supply → balance_of s.balances frm < v →
       burn s frm v = .error Error.InsufficientBalance ∧
       applyOp s (.burn frm v) = s) := by
  constructor
  · intro h
    have hb := burn_underflow s frm v hv h
    refine ⟨hb, ?_⟩
    simp only [applyOp]
    rw [hb]
  · intro h1 h2
    have hb := burn_insufficient s frm v hv h1 h2
    refine ⟨hb, ?_⟩
    simp only [applyOp]
    rw [hb]

theorem c2_burn_error_order_witness :
    (burn { balances := [(1, 2), (2, 3)], total_supply := 5 } 1 3 =
       .error Error.InsufficientBalance ∧
     applyOp { balances := [(1, 2), (2, 3)], total_supply := 5 } (.burn 1 3) =
       { balances := [(1, 2), (2, 3)], total_supply := 5 }) :=
  (c2_burn_error_order { balances := [(1, 2), (2, 3)], total_supply := 5 } 1 3
    (by decide)).2 (by decide) (by decide)

/-- C3: For every state and every non-zero amount, `mint` fails with
`NumericOverflow` and performs no mutation if either `total_supply +
amount` or `balance_of(account) + amount` leaves the 256-bit unsigned
domain; otherwise it commits both new values and returns `Ok(true)`. -/
theorem c3_mint_overflow_or_commit (s : VftState) (dst : ActorId) (v : Nat)
    (hv : v ≠ 0) :
    ((U256_MOD ≤ s.total_supply + v ∨
        U256_MOD ≤ balance_of s.balances dst + v) →
       mint s dst v = .error Error.NumericOverflow ∧
       applyOp s (.mint dst v) = s) ∧
    (s.total_supply + v < U256_MOD → balance_of s.balances dst + v < U256_MOD →
       mint s dst v =
         .ok (true,
           { balances := insertB s.balances dst (balance_of s.balances dst + v),
             total_supply := s.total_supply + v })) := by
  constructor
  · intro h
    have hm : mint s dst v = .error Error.NumericOverflow := by
      rcases h with h | h
      · exact mint_overflow_total s dst v hv h
      · exact mint_overflow_balance s dst v hv h
    refine ⟨hm, ?_⟩
    simp only [applyOp]
    rw [hm]
  · exact mint_success s dst v hv

theorem c3_mint_overflow_or_commit_witness :
    mint { balances := [], total_supply := 0 } 1 5 =
      .ok (true, { balances := [(1, 5)], total_supply := 5 }) :=
  (c3_mint_overflow_or_commit { balances := [], total_supply := 0 } 1 5
    (by decide)).2 (by decide) (by decide)

/-- C6: No zero-value entries — every key present in the balance map of
a state reachable from initialization by mint and burn has a non-zero
balance; and a successful debit that brings an account's balance to
exactly zero removes that account's key from the map. -/
theorem c6_no_zero_entries :
    (∀ (ops : List Op) (a : ActorId) (w : Nat),
       lookupB (run initState ops).balances a = some w → w ≠ 0) ∧
    (∀ (s : VftState) (frm : ActorId) (v : Nat) (s' : VftState),
       burn s frm v = .ok (true, s') → balance_of s.balances frm = v →
       lookupB s'.balances frm = none) := by
  constructor
  · intro ops a w h
    exact nz_run ops initState (by intro a w h; exact absurd h (by simp [initState, lookupB])) a w h
  · intro s frm v s' h hbal
    rcases burn_ok_cases s frm v true s' h with ⟨hb, _, _⟩ | ⟨_, hv, _, _, hs⟩
    · exact absurd hb (by simp)
    · subst hs
      show lookupB (if balance_of s.balances frm - v ≠ 0 then
          insertB s.balances frm (balance_of s.balances frm - v)
        else removeB s.balances frm) frm = none
      rw [if_neg (by omega)]
      exact lookupB_removeB_self s.balances frm

theorem c6_no_zero_entries_witness :
    lookupB (VftState.balances { balances := [], total_supply := 0 }) 1 = none :=
  c6_no_zero_entries.2 { balances := [(1, 5)], total_supply := 5 } 1 5
    { balances := [], total_supply := 0 } (by rfl) (by rfl)

/-- C10: In any state satisfying the conservation invariant, if the
checked addition `total_supply + amount` succeeds, then the per-account
checked addition `balance_of(account) + amount` also succeeds: the
second `NumericOverflow` branch of `mint` is unreachable. -/
theorem c10_second_overflow_unreachable (s : VftState) (dst : ActorId)
    (v : Nat) (hinv : sumB s.balances = s.total_supply)
    (h : (checked_add s.total_supply v).isSome) :
    (checked_add (balance_of s.balances dst) v).isSome ∧
    mint s dst v ≠ .error Error.NumericOverflow := by
  have hb := balance_of_le_sumB s.balances dst
  have h1 : s.total_supply + v < U256_MOD := by
    rcases ho : checked_add s.total_supply v with _ | c
    · rw [ho] at h; exact absurd h (by simp)
    · have := (checked_add_eq_some s.total_supply v c).1 ho
      omega
  have h2 : balance_of s.balances dst + v < U256_MOD := by omega
  constructor
  · rw [(checked_add_eq_some (balance_of s.balances dst) v
      (balance_of s.balances dst + v)).2 ⟨h2, rfl⟩]
    rfl
  · by_cases hv : v = 0
    · subst hv
      rw [mint_zero]
      simp
    · rw [mint_success s dst v hv h1 h2]
      simp

theorem c10_second_overflow_unreachable_witness :
    (checked_add (balance_of (VftState.balances
        { balances := [(1, 3)], total_supply := 3 }) 1) 2).isSome ∧
    mint { balances := [(1, 3)], total_supply := 3 } 1 2 ≠
      .error Error.NumericOverflow :=
  c10_second_overflow_unreachable { balances := [(1, 3)], total_supply := 3 }
    1 2 (by rfl) (by decide)

theorem admins_applyExtE (s : ExtState) (op : ExtOp)
    (h : s.ext.admins = ∅) : (applyExtE s op).2.ext.admins = ∅ := by
  cases op with
  | mint c dst v =>
    cases hm : extMint s c dst v with
    | error e =>
      simp only [applyExtE]
      rw [hm]
      exact h
    | ok p =>
      obtain ⟨b, evs, s'⟩ := p
      simp only [applyExtE]
      rw [hm]
      show s'.ext.admins = ∅
      rw [extMint_ok_ext s c dst v b evs s' hm]
      exact h
  | burn c frm v =>
    cases hm : extBurn s c frm v with
    | error e =>
      simp only [applyExtE]
      rw [hm]
      exact h
    | ok p =>
      obtain ⟨b, evs, s'⟩ := p
      simp only [applyExtE]
      rw [hm]
      show s'.ext.admins = ∅
      rw [extBurn_ok_ext s c frm v b evs s' hm]
      exact h
  | grantAdmin c x =>
    have hg := grant_admin_role_not_admin s c x
      (by rw [h]; exact Finset.not_mem_empty c)
    simp only [applyExtE, hg]
    exact h
  | grantMinter c x =>
    have hg := grant_minter_role_not_admin s c x
      (by rw [h]; exact Finset.not_mem_empty c)
    simp only [applyExtE, hg]
    exact h
  | grantBurner c x =>
    have hg := grant_burner_role_not_admin s c x
      (by rw [h]; exact Finset.not_mem_empty c)
    simp only [applyExtE, hg]
    exact h
  | revokeAdmin c x =>
    have hg := revoke_admin_role_not_admin s c x
      (by rw [h]; exact Finset.not_mem_empty c)
    simp only [applyExtE, hg]
    exact h
  | revokeMinter c x =>
    have hg := revoke_minter_role_not_admin s c x
      (by rw [h]; exact Finset.not_mem_empty c)
    simp only [applyExtE, hg]
    exact h
  | revokeBurner c x =>
    have hg := revoke_burner_role_not_admin s c x
      (by rw [h]; exact Finset.not_mem_empty c)
    simp only [applyExtE, hg]
    exact h

theorem admins_runExt (ops : List ExtOp) (s : ExtState)
    (h : s.ext.admins = ∅) : (runExt s ops).ext.admins = ∅ := by
  induction ops generalizing s with
  | nil => exact h
  | cons op t ih => exact ih ((applyExtE s op).2) (admins_applyExtE s op h)

/-- C4: Authorization gating — a caller outside the required role set
(minter for mint, burner for burn, admin for the six grant/revoke
operations) makes the gated operation fail with `NotAuthorized`, with
the whole state unchanged and no event emitted. -/
theorem c4_authorization_gating (s : ExtState) (caller x : ActorId) (v : Nat) :
    (caller ∉ s.ext.minters →
       extMint s caller x v = .error ExtError.NotAuthorized ∧
       applyExtE s (.mint caller x v) = ([], s)) ∧
    (caller ∉ s.ext.burners →
       extBurn s caller x v = .error ExtError.NotAuthorized ∧
       applyExtE s (.burn caller x v) = ([], s)) ∧
    (caller ∉ s.ext.admins →
       (grant_admin_role s caller x = .error ExtError.NotAuthorized ∧
        grant_minter_role s caller x = .error ExtError.NotAuthorized ∧
        grant_burner_role s caller x = .error ExtError.NotAuthorized ∧
        revoke_admin_role s caller x = .error ExtError.NotAuthorized ∧
        revoke_minter_role s caller x = .error ExtError.NotAuthorized ∧
        revoke_burner_role s caller x = .error ExtError.NotAuthorized) ∧
       (applyExtE s (.grantAdmin caller x) = ([], s) ∧
        applyExtE s (.grantMinter caller x) = ([], s) ∧
        applyExtE s (.grantBurner caller x) = ([], s) ∧
        applyExtE s (.revokeAdmin caller x) = ([], s) ∧
        applyExtE s (.revokeMinter caller x) = ([], s) ∧
        applyExtE s (.revokeBurner caller x) = ([], s))) := by
  refine ⟨fun h => ?_, fun h => ?_, fun h => ?_⟩
  · have hm := extMint_not_minter s caller x v h
    exact ⟨hm, by simp only [applyExtE, hm]⟩
  · have hb := extBurn_not_burner s caller x v h
    exact ⟨hb, by simp only [applyExtE, hb]⟩
  · have h1 := grant_admin_role_not_admin s caller x h
    have h2 := grant_minter_role_not_admin s caller x h
    have h3 := grant_burner_role_not_admin s caller x h
    have h4 := revoke_admin_role_not_admin s caller x h
    have h5 := revoke_minter_role_not_admin s caller x h
    have h6 := revoke_burner_role_not_admin s caller x h
    exact ⟨⟨h1, h2, h3, h4, h5, h6⟩,
           by simp only [applyExtE, h1],
           by simp only [applyExtE, h2],
           by simp only [applyExtE, h3],
           by simp only [applyExtE, h4],
           by simp only [applyExtE, h5],
           by simp only [applyExtE, h6]⟩

theorem c4_authorization_gating_witness :
    extMint (seed 1) 0 2 5 = .error ExtError.NotAuthorized ∧
    applyExtE (seed 1) (.mint 0 2 5) = ([], seed 1) :=
  (c4_authorization_gating (seed 1) 0 2 5).1 (by decide)

/-- C5 counterexample: an unauthorized caller with amount `0` does not
get the `Ok(false)` no-op outcome; the authorization check fires first
and the call fails with `NotAuthorized`. -/
theorem c5_zero_amount_counterexample :
    extMint (seed 1) 0 2 0 = .error ExtError.NotAuthorized ∧
    extBurn (seed 1) 0 2 0 = .error ExtError.NotAuthorized :=
  ⟨extMint_not_minter (seed 1) 0 2 0 (by decide),
   extBurn_not_burner (seed 1) 0 2 0 (by decide)⟩

/-- C5 (amended): for every caller holding the required role, zero
amount mint/burn returns `Ok(false)`, changes no state and emits no
event; a caller without the role fails with `NotAuthorized` even for
amount `0` (authorization is checked first). -/
theorem c5_zero_amount_noop (s : ExtState) (caller dst frm : ActorId) :
    (caller ∈ s.ext.minters → extMint s caller dst 0 = .ok (false, [], s)) ∧
    (caller ∈ s.ext.burners → extBurn s caller frm 0 = .ok (false, [], s)) ∧
    (caller ∉ s.ext.minters →
       extMint s caller dst 0 = .error ExtError.NotAuthorized) ∧
    (caller ∉ s.ext.burners →
       extBurn s caller frm 0 = .error ExtError.NotAuthorized) := by
  refine ⟨fun h => ?_, fun h => ?_,
         fun h => extMint_not_minter s caller dst 0 h,
         fun h => extBurn_not_burner s caller frm 0 h⟩
  · unfold extMint
    rw [if_neg (not_not_intro h), mint_zero]
    rfl
  · unfold extBurn
    rw [if_neg (not_not_intro h), burn_zero]
    rfl

theorem c5_zero_amount_noop_witness :
    extMint (seed 1) 1 2 0 = .ok (false, [], seed 1) :=
  (c5_zero_amount_noop (seed 1) 1 2 3).1 (by decide)

/-- C7: Event emission iff mutation — a mint call returning `Ok(true)`
emits exactly one `Minted` event, a burn call returning `Ok(true)` emits
exactly one `Burned` event, and calls returning `Ok(false)` or failing
emit no event. -/
theorem c7_event_iff_mutation (s : ExtState) (caller dst frm : ActorId)
    (v : Nat) :
    (∀ b evs s', extMint s caller dst v = .ok (b, evs, s') →
       (b = true → evs = [Event.Minted dst v]) ∧ (b = false → evs = [])) ∧
    (∀ e, extMint s caller dst v = .error e →
       extResultEvents (extMint s caller dst v) = []) ∧
    (∀ b evs s', extBurn s caller frm v = .ok (b, evs, s') →
       (b = true → evs = [Event.Burned frm v]) ∧ (b = false → evs = [])) ∧
    (∀ e, extBurn s caller frm v = .error e →
       extResultEvents (extBurn s caller frm v) = []) := by
  refine ⟨?_, ?_, ?_, ?_⟩
  · intro b evs s' h
    unfold extMint at h
    split at h
    · exact absurd h (by simp)
    · split at h
      · exact absurd h (by simp)
      · simp only [Except.ok.injEq, Prod.mk.injEq] at h
        obtain ⟨hb, hevs, _⟩ := h
        subst hb
        constructor
        · intro ht
          rw [ht] at hevs
          simpa using hevs.symm
        · intro hf
          rw [hf] at hevs
          simpa using hevs.symm
  · intro e h
    simp [extResultEvents, h]
  · intro b evs s' h
    unfold extBurn at h
    split at h
    · exact absurd h (by simp)
    · split at h
      · exact absurd h (by simp)
      · simp only [Except.ok.injEq, Prod.mk.injEq] at h
        obtain ⟨hb, hevs, _⟩ := h
        subst hb
        constructor
        · intro ht
          rw [ht] at hevs
          simpa using hevs.symm
        · intro hf
          rw [hf] at hevs
          simpa using hevs.symm
  · intro e h
    simp [extResultEvents, h]

theorem c7_event_iff_mutation_witness :
    extResultEvents (extMint (seed 1) 1 2 5) = [Event.Minted 2 5] := by
  have h := ((c7_event_iff_mutation (seed 1) 1 2 3 5).1 true [Event.Minted 2 5]
      { ext := (seed 1).ext, vft := { balances := [(2, 5)], total_supply := 5 } }
      (by rfl)).1 rfl
  exact h ▸ rfl

/-- C8: Admin lockout — revoking the sole remaining admin succeeds, and
from any state with an empty admin set, after every further sequence of
calls the admin set is still empty and every admin-gated grant or revoke
operation by every caller fails with `NotAuthorized`. -/
theorem c8_admin_lockout (s : ExtState) (c : ActorId) :
    (s.ext.admins = {c} →
       revoke_admin_role s c c =
         .ok { s with ext := { s.ext with admins := ∅ } }) ∧
    (s.ext.admins = ∅ → ∀ ops : List ExtOp,
       (runExt s ops).ext.admins = ∅ ∧
       ∀ caller x : ActorId,
         grant_admin_role (runExt s ops) caller x =
           .error ExtError.NotAuthorized ∧
         grant_minter_role (runExt s ops) caller x =
           .error ExtError.NotAuthorized ∧
         grant_burner_role (runExt s ops) caller x =
           .error ExtError.NotAuthorized ∧
         revoke_admin_role (runExt s ops) caller x =
           .error ExtError.NotAuthorized ∧
         revoke_minter_role (runExt s ops) caller x =
           .error ExtError.NotAuthorized ∧
         revoke_burner_role (runExt s ops) caller x =
           .error ExtError.NotAuthorized) := by
  constructor
  · intro hA
    unfold revoke_admin_role
    rw [if_neg (by rw [hA]; simp)]
    rw [hA, Finset.erase_singleton]
  · intro hE ops
    have hrun := admins_runExt ops s hE
    refine ⟨hrun, fun caller x => ?_⟩
    have hnc : caller ∉ (runExt s ops).ext.admins := by
      rw [hrun]
      exact Finset.not_mem_empty caller
    exact ⟨grant_admin_role_not_admin _ _ _ hnc,
           grant_minter_role_not_admin _ _ _ hnc,
           grant_burner_role_not_admin _ _ _ hnc,
           revoke_admin_role_not_admin _ _ _ hnc,
           revoke_minter_role_not_admin _ _ _ hnc,
           revoke_burner_role_not_admin _ _ _ hnc⟩

theorem c8_admin_lockout_witness :
    revoke_admin_role (seed 1) 1 1 =
      .ok { seed 1 with ext := { (seed 1).ext with admins := ∅ } } ∧
    grant_admin_role { seed 1 with ext := { (seed 1).ext with admins := ∅ } } 1 1 =
      .error ExtError.NotAuthorized :=
  ⟨(c8_admin_lockout (seed 1) 1).1 rfl,
   (((c8_admin_lockout
       { seed 1 with ext := { (seed 1).ext with admins := ∅ } } 1).2 rfl []).2 1 1).1⟩

theorem balance_of_insertB_ne (m : BalancesMap) (a b : ActorId) (v : Nat)
    (h : b ≠ a) : balance_of (insertB m a v) b = balance_of m b := by
  unfold balance_of
  rw [lookupB_insertB_ne m a b v h]

theorem balance_of_removeB_ne (m : BalancesMap) (a b : ActorId)
    (h : b ≠ a) : balance_of (removeB m a) b = balance_of m b := by
  unfold balance_of
  rw [lookupB_removeB_ne m a b h]

/-- C9: Frame property — a successful mint leaves every other account's
balance unchanged, a successful burn leaves every account other than the
debited one unchanged, and neither operation changes the role sets. -/
theorem c9_frame_property :
    (∀ (s : VftState) (dst : ActorId) (v : Nat) (b : Bool) (s' : VftState),
       mint s dst v = .ok (b, s') →
       ∀ a, a ≠ dst → balance_of s'.balances a = balance_of s.balances a) ∧
    (∀ (s : VftState) (frm : ActorId) (v : Nat) (b : Bool) (s' : VftState),
       burn s frm v = .ok (b, s') →
       ∀ a, a ≠ frm → balance_of s'.balances a = balance_of s.balances a) ∧
    (∀ (t : ExtState) (caller dst : ActorId) (v : Nat) (b : Bool)
       (evs : List Event) (t' : ExtState),
       extMint t caller dst v = .ok (b, evs, t') → t'.ext = t.ext) ∧
    (∀ (t : ExtState) (caller frm : ActorId) (v : Nat) (b : Bool)
       (evs : List Event) (t' : ExtState),
       extBurn t caller frm v = .ok (b, evs, t') → t'.ext = t.ext) := by
  refine ⟨?_, ?_, extMint_ok_ext, extBurn_ok_ext⟩
  · intro s dst v b s' h a ha
    rcases mint_ok_cases s dst v b s' h with ⟨_, _, hs⟩ | ⟨_, _, _, _, hs⟩
    · subst hs; rfl
    · subst hs
      show balance_of (insertB s.balances dst (balance_of s.balances dst + v)) a
        = balance_of s.balances a
      rw [balance_of_insertB_ne s.balances dst a (balance_of s.balances dst + v) ha]
  · intro s frm v b s' h a ha
    rcases burn_ok_cases s frm v b s' h with ⟨_, _, hs⟩ | ⟨_, _, _, _, hs⟩
    · subst hs; rfl
    · subst hs
      show balance_of (if balance_of s.balances frm - v ≠ 0 then
          insertB s.balances frm (balance_of s.balances frm - v)
        else removeB s.balances frm) a = balance_of s.balances a
      by_cases hz : balance_of s.balances frm - v ≠ 0
      · rw [if_pos hz]
        rw [balance_of_insertB_ne s.balances frm a (balance_of s.balances frm - v) ha]
      · rw [if_neg hz]
        rw [balance_of_removeB_ne s.balances frm a ha]

theorem c9_frame_property_witness :
    balance_of (VftState.balances
        { balances := [(2, 3), (1, 5)], total_supply := 8 }) 1 =
      balance_of (VftState.balances
        { balances := [(1, 5)], total_supply := 5 }) 1 :=
  c9_frame_property.1 { balances := [(1, 5)], total_supply := 5 } 2 3 true
    { balances := [(2, 3), (1, 5)], total_supply := 8 } (by rfl) 1 (by decide)
